import Mathlib

/-!
Verification of the ApplySharp repository.

The repository consists of the Next.js frontend page
(`frontend/pages/index.js`) plus a setup guide.  The definitions below are
a shallow embedding of that frontend code: JavaScript objects are modelled
as `JsVal` values, React rendering of a value is modelled by the text the
value produces as a React child, and each handler of the page is a pure
Lean function over the component's state.  The backend pipeline (intelligence
gathering, question synthesis, session store, generation engine) is not part
of the repository; where a claim concerns it, the corresponding definitions
are modelled from the specification and are marked as such in their doc
comments.
-/

namespace ApplySharp

/-- A JavaScript value as the frontend manipulates it: a string, a flat or
nested object (association list of fields), an array, or `undefined`. -/
inductive JsVal where
  | str : String → JsVal
  | record : List (String × JsVal) → JsVal
  | arr : List JsVal → JsVal
  | undefined : JsVal
deriving Repr

/-- JavaScript member access `o.k`: field lookup on an object, `undefined`
on anything else (also models `o?.k` since `jsGet undefined k = undefined`). -/
def jsGet : JsVal → String → JsVal
  | .record fs, k => match fs.find? (fun p => p.1 == k) with
    | some p => p.2
    | none => .undefined
  | _, _ => .undefined

/-- JavaScript truthiness restricted to the values of the model:
`undefined` and the empty string are falsy, objects and arrays truthy. -/
def jsTruthy : JsVal → Bool
  | .str s => !(s == "")
  | .record _ => true
  | .arr _ => true
  | .undefined => false

/-- JavaScript `x || y`. -/
def jsOr (x y : JsVal) : JsVal := if jsTruthy x then x else y

/-- The text a value produces when rendered as a React child: a string
renders itself, `undefined` renders nothing, and an object is not a valid
React child (rendering it is a runtime error), modelled as `none`. -/
def reactChildText : JsVal → Option String
  | .str s => some s
  | .undefined => some ""
  | .arr _ => none
  | .record _ => none

/-- The source line of a rendered heads-up tip: a link (href and label)
when `source_url` is truthy, otherwise a plain label. -/
inductive TipSourceLine where
  | link : JsVal → JsVal → TipSourceLine
  | plain : JsVal → TipSourceLine
deriving Repr

/-- What `QuestionsStage` renders for one heads-up tip (index.js lines
530-546): the advice paragraph `{tip.tip}`, the source line (a link
`↗ {tip.source}` to `tip.source_url` when that is truthy, else a plain
`{tip.source}` span), and a success tag with `tip.action_taken` when that
is truthy. -/
structure RenderedTip where
  advice : JsVal
  sourceLine : TipSourceLine
  actionTag : Option JsVal
deriving Repr

/-- Rendering of one heads-up tip in `QuestionsStage` (index.js 530-546). -/
def renderHeadsUpTip (t : JsVal) : RenderedTip :=
  { advice := jsGet t "tip"
  , sourceLine :=
      if jsTruthy (jsGet t "source_url") then
        .link (jsGet t "source_url") (jsGet t "source")
      else
        .plain (jsGet t "source")
  , actionTag :=
      if jsTruthy (jsGet t "action_taken") then some (jsGet t "action_taken")
      else none }

/-- The gold tag label for one tip in the `ResultsStage` heads-up banner
(index.js line 719): `t.tip.split(\x27.\x27)[0].substring(0, 50)`; `none`
when `t.tip` is not a string (in JavaScript that line would throw). -/
def resultsBannerTag (t : JsVal) : Option String :=
  match jsGet t "tip" with
  | .str s => some ((((s.splitOn ".").headD "").take 50))
  | _ => none

/-- The field names of a tip object that the frontend reads when rendering
it: `tip`, `source`, `source_url` and `action_taken` (index.js 530-546 and
719). -/
def tipFieldsRead : List String := ["tip", "source", "source_url", "action_taken"]

/-- Two objects agree on a list of fields. -/
def agreeOn (fields : List String) (t t' : JsVal) : Prop :=
  ∀ k ∈ fields, jsGet t k = jsGet t' k

/-- What `QuestionsStage` renders for one entry of
`linkedin_contradictions` (index.js 592-595): the value itself is placed as
a React child after a warning marker; no field of the value is accessed. -/
def renderContradictionLine (c : JsVal) : JsVal := c

/-- The text displayed for one contradiction entry: the value rendered
whole as a React child. -/
def contradictionDisplayText (c : JsVal) : Option String :=
  reactChildText (renderContradictionLine c)

/-- A tip object carrying its advice in a field named `text`, as the spec
describes the Tip record. -/
def tipWithTextField : JsVal :=
  .record [("text", .str "Tailor your summary to the role"), ("source", .str "Forbes")]

/-- A tip object carrying its advice in a field named `tip`, as the
frontend actually reads it. -/
def tipWithTipField : JsVal :=
  .record [("tip", .str "Quantify your impact with numbers"), ("source", .str "Forbes")]

/-- Claim C1 (counterexample): a tip whose advice text is carried in a
field named `text` — the shape the spec gives for the Tip record — has its
advice NOT displayed by the frontend: `QuestionsStage` renders
`undefined` for the advice paragraph and the `ResultsStage` banner cannot
render it at all, whereas a tip carrying the advice in a field named `tip`
is displayed. -/
theorem tip_text_field_not_rendered :
    jsGet tipWithTextField "text" = JsVal.str "Tailor your summary to the role" ∧
    (renderHeadsUpTip tipWithTextField).advice = JsVal.undefined ∧
    resultsBannerTag tipWithTextField = none ∧
    (renderHeadsUpTip tipWithTipField).advice = JsVal.str "Quantify your impact with numbers" ∧
    jsGet tipWithTipField "text" = JsVal.undefined :=
  ⟨rfl, rfl, rfl, rfl, rfl⟩

/-- Claim C1 (amended): every user-visible tip, as consumed by the
frontend, carries its advice text in a field named `tip` (not `text`),
alongside `source`, optional `source_url` and optional `action_taken`:
the rendered advice is exactly the `tip` field, and both the
`QuestionsStage` tip card and the `ResultsStage` banner are functions of
only the fields `tip`, `source`, `source_url`, `action_taken`. -/
theorem tip_rendering_uses_tip_field (t t' : JsVal)
    (h : agreeOn tipFieldsRead t t') :
    (renderHeadsUpTip t).advice = jsGet t "tip" ∧
    renderHeadsUpTip t = renderHeadsUpTip t' ∧
    resultsBannerTag t = resultsBannerTag t' := by
  have htip : jsGet t "tip" = jsGet t' "tip" := h "tip" (by simp [tipFieldsRead])
  have hsrc : jsGet t "source" = jsGet t' "source" := h "source" (by simp [tipFieldsRead])
  have hurl : jsGet t "source_url" = jsGet t' "source_url" :=
    h "source_url" (by simp [tipFieldsRead])
  have hact : jsGet t "action_taken" = jsGet t' "action_taken" :=
    h "action_taken" (by simp [tipFieldsRead])
  refine ⟨rfl, ?_, ?_⟩
  · simp only [renderHeadsUpTip, htip, hsrc, hurl, hact]
  · simp only [resultsBannerTag, htip]

/-- Witness for the amended C1 theorem at a concrete tip object. -/
theorem tip_rendering_uses_tip_field_witness :
    (renderHeadsUpTip tipWithTipField).advice = jsGet tipWithTipField "tip" :=
  (tip_rendering_uses_tip_field tipWithTipField tipWithTipField (fun _ _ => rfl)).1

/-- A contradiction entry shaped as the spec's structured record
`\x7bcv_claim, linkedin_claim\x7d`. -/
def contradictionAsRecord : JsVal :=
  .record [("cv_claim", .str "Engineer, 2021-2022"),
           ("linkedin_claim", .str "Senior Engineer, 2021-present")]

/-- Claim C2 (counterexample): a structured contradiction record with the
two fields `cv_claim` and `linkedin_claim` produces no displayed text in
the frontend (an object is not a valid React child), so neither claim of
the pair is displayed; a plain string, by contrast, is displayed verbatim. -/
theorem structured_contradiction_not_renderable :
    contradictionDisplayText contradictionAsRecord = none ∧
    contradictionDisplayText (JsVal.str "Title differs between CV and LinkedIn") =
      some "Title differs between CV and LinkedIn" :=
  ⟨rfl, rfl⟩

/-- Claim C2 (amended): each element of `linkedin_contradictions` is
consumed by the frontend as a plain display value: the rendering places
the element itself as a React child (after a warning marker) and reads no
field of it, so a string element is displayed verbatim and the two claims
of a mismatch can only be displayed when they are already part of that
single string. -/
theorem contradiction_rendered_as_plain_string :
    (∀ c : JsVal, renderContradictionLine c = c) ∧
    (∀ s : String, contradictionDisplayText (JsVal.str s) = some s) :=
  ⟨fun _ => rfl, fun _ => rfl⟩

/-- The text fields of the `InputStage` form (index.js line 239). -/
structure InputForm where
  company : String
  role : String
  location : String
  jobDescription : String
deriving Repr

/-- The `FormData` built by `InputStage.handleSubmit` (index.js 260-267):
the six mandatory fields in order, then `linkedin_file` only when a
LinkedIn PDF was attached.  Files are modelled by their names. -/
def buildAnalyzeFormData (password : String) (form : InputForm)
    (cvFile : String) (linkedinFile : Option String) : List (String × String) :=
  [("password", password),
   ("company", form.company),
   ("role", form.role),
   ("location", form.location),
   ("job_description", form.jobDescription),
   ("cv_file", cvFile)] ++
  (match linkedinFile with
   | some l => [("linkedin_file", l)]
   | none => [])

/-- The fields of the analyze response that the frontend reads:
`session_id` in `handleGenerate` (index.js 492) and the six collections at
the top of `QuestionsStage` (index.js 474-479). -/
def analyzeResponseFieldsRead : List String :=
  ["session_id", "questions", "gaps_found", "auto_fixes", "heads_up_tips",
   "ai_words_detected", "linkedin_contradictions"]

/-- Everything `QuestionsStage` derives from the analyze response. -/
structure QuestionsStageData where
  sessionId : JsVal
  questions : JsVal
  gapsFound : JsVal
  autoFixes : JsVal
  headsUpTips : JsVal
  aiWordsDetected : JsVal
  linkedinContradictions : JsVal
deriving Repr

/-- How `QuestionsStage` consumes the analyze response (index.js 474-479
and 492): each collection is `analysisData?.FIELD || []`, and
`session_id` is read directly when building the generate request. -/
def questionsStageData (analysisData : JsVal) : QuestionsStageData :=
  { sessionId := jsGet analysisData "session_id"
  , questions := jsOr (jsGet analysisData "questions") (.arr [])
  , gapsFound := jsOr (jsGet analysisData "gaps_found") (.arr [])
  , autoFixes := jsOr (jsGet analysisData "auto_fixes") (.arr [])
  , headsUpTips := jsOr (jsGet analysisData "heads_up_tips") (.arr [])
  , aiWordsDetected := jsOr (jsGet analysisData "ai_words_detected") (.arr [])
  , linkedinContradictions := jsOr (jsGet analysisData "linkedin_contradictions") (.arr []) }

/-- Claim C3: the analyze request contains exactly the fields `password`,
`company`, `role`, `location`, `job_description`, `cv_file`, and —
only when a LinkedIn PDF was attached — `linkedin_file`; and the data the
frontend derives from the analyze response is a function of exactly the
seven fields of `analyzeResponseFieldsRead`: any two responses agreeing
on those fields are consumed identically. -/
theorem analyze_request_and_response_fields (pw : String) (form : InputForm)
    (cv : String) (li : Option String) (r r' : JsVal)
    (h : agreeOn analyzeResponseFieldsRead r r') :
    (buildAnalyzeFormData pw form cv li).map Prod.fst =
      ["password", "company", "role", "location", "job_description", "cv_file"] ++
        (if li.isSome then ["linkedin_file"] else []) ∧
    questionsStageData r = questionsStageData r' := by
  constructor
  · cases li <;> simp [buildAnalyzeFormData]
  · have h1 := h "session_id" (by simp [analyzeResponseFieldsRead])
    have h2 := h "questions" (by simp [analyzeResponseFieldsRead])
    have h3 := h "gaps_found" (by simp [analyzeResponseFieldsRead])
    have h4 := h "auto_fixes" (by simp [analyzeResponseFieldsRead])
    have h5 := h "heads_up_tips" (by simp [analyzeResponseFieldsRead])
    have h6 := h "ai_words_detected" (by simp [analyzeResponseFieldsRead])
    have h7 := h "linkedin_contradictions" (by simp [analyzeResponseFieldsRead])
    simp only [questionsStageData, h1, h2, h3, h4, h5, h6, h7]

/-- Witness for the C3 theorem at a concrete submission and response. -/
theorem analyze_request_and_response_fields_witness :
    (buildAnalyzeFormData "pw" ⟨"Google", "Backend Engineer", "Singapore", "jd"⟩
        "cv.pdf" none).map Prod.fst =
      ["password", "company", "role", "location", "job_description", "cv_file"] ++
        (if (none : Option String).isSome then ["linkedin_file"] else []) :=
  (analyze_request_and_response_fields "pw" ⟨"Google", "Backend Engineer", "Singapore", "jd"⟩
    "cv.pdf" none (.record [("session_id", .str "s1")]) (.record [("session_id", .str "s1")])
    (fun _ _ => rfl)).1

/-- JavaScript object update `\x7b...a, [k]: v\x7d` on a string-keyed map of
strings: the value of an existing key is replaced in place, a new key is
appended.  This is how `updateAnswer` (index.js 481) grows the `answers`
state. -/
def setKey : List (String × String) → String → String → List (String × String)
  | [], k, v => [(k, v)]
  | (k', v') :: rest, k, v =>
      if k' = k then (k', v) :: rest else (k', v') :: setKey rest k v

/-- The `answers` state after a sequence of `updateAnswer(id, val)` events,
starting from the empty object (index.js 470, 481, 617). -/
def applyAnswerEvents (evs : List (String × String)) : List (String × String) :=
  evs.foldl (fun a e => setKey a e.1 e.2) []

/-- The JSON body of the generate request built by
`QuestionsStage.handleGenerate` (index.js 490-494): exactly `password`,
`session_id` (read off the analyze response) and `user_answers`. -/
def buildGenerateBody (password : String) (analysisData : JsVal)
    (answers : List (String × String)) : List (String × JsVal) :=
  [("password", .str password),
   ("session_id", jsGet analysisData "session_id"),
   ("user_answers", .record (answers.map (fun p => (p.1, JsVal.str p.2))))]

theorem setKey_keys (a : List (String × String)) (k v : String) :
    (setKey a k v).map Prod.fst =
      if k ∈ a.map Prod.fst then a.map Prod.fst else a.map Prod.fst ++ [k] := by
  induction a with
  | nil => simp [setKey]
  | cons hd tl ih =>
      by_cases hk : hd.1 = k
      · simp [setKey, hk]
      · simp only [setKey, hk, if_false, List.map_cons, ih]
        by_cases hmem : k ∈ tl.map Prod.fst
        · simp [hmem, Ne.symm hk]
        · simp [hmem, Ne.symm hk]

theorem setKey_keys_nodup (a : List (String × String)) (k v : String)
    (h : (a.map Prod.fst).Nodup) : ((setKey a k v).map Prod.fst).Nodup := by
  rw [setKey_keys]
  by_cases hmem : k ∈ a.map Prod.fst
  · rwa [if_pos hmem]
  · rw [if_neg hmem]
    exact List.Nodup.append h (List.nodup_singleton k)
      (fun x hx hxk => absurd ((List.mem_singleton.mp hxk) ▸ hx) hmem)

theorem setKey_keys_subset (a : List (String × String)) (k v x : String)
    (hx : x ∈ (setKey a k v).map Prod.fst) : x ∈ a.map Prod.fst ∨ x = k := by
  rw [setKey_keys] at hx
  by_cases hmem : k ∈ a.map Prod.fst
  · rw [if_pos hmem] at hx; exact Or.inl hx
  · rw [if_neg hmem, List.mem_append, List.mem_singleton] at hx
    exact hx

theorem applyAnswerEvents_aux (qids : List String) (evs : List (String × String))
    (a : List (String × String)) (hevs : ∀ e ∈ evs, e.1 ∈ qids)
    (ha : (a.map Prod.fst).Nodup) (hsub : ∀ k ∈ a.map Prod.fst, k ∈ qids) :
    ((evs.foldl (fun a e => setKey a e.1 e.2) a).map Prod.fst).Nodup ∧
    (∀ k ∈ (evs.foldl (fun a e => setKey a e.1 e.2) a).map Prod.fst, k ∈ qids) := by
  induction evs generalizing a with
  | nil => exact ⟨ha, hsub⟩
  | cons hd tl ih =>
      simp only [List.foldl_cons]
      exact ih (setKey a hd.1 hd.2)
        (fun e he => hevs e (List.mem_cons_of_mem hd he))
        (setKey_keys_nodup a hd.1 hd.2 ha)
        (fun k hk => by
          rcases setKey_keys_subset a hd.1 hd.2 k hk with h | h
          · exact hsub k h
          · exact h ▸ hevs hd (List.mem_cons_self hd tl))

/-- Claim C4: the generate request body has exactly the fields `password`,
`session_id` and `user_answers`; the `session_id` sent is the one read
off the analyze response; and when every answer edit targets a question
id of the analyze response, the `user_answers` map has keys drawn from
those question ids with at most one answer slot per question id (its key
list has no duplicates). -/
theorem generate_request_fields_and_answers (pw : String) (analysisData : JsVal)
    (qids : List String) (evs : List (String × String))
    (hevs : ∀ e ∈ evs, e.1 ∈ qids) :
    (buildGenerateBody pw analysisData (applyAnswerEvents evs)).map Prod.fst =
      ["password", "session_id", "user_answers"] ∧
    (buildGenerateBody pw analysisData (applyAnswerEvents evs)).lookup "session_id" =
      some (jsGet analysisData "session_id") ∧
    ((applyAnswerEvents evs).map Prod.fst).Nodup ∧
    (∀ k ∈ (applyAnswerEvents evs).map Prod.fst, k ∈ qids) := by
  have h := applyAnswerEvents_aux qids evs [] hevs (by simp) (by simp)
  exact ⟨rfl, rfl, h.1, h.2⟩

/-- Witness for the C4 theorem: two questions, the first answered twice
(the second edit overwrites the first), the second answered once. -/
theorem generate_request_fields_and_answers_witness :
    ((applyAnswerEvents [("q1", "draft"), ("q2", "yes"), ("q1", "final")]).map
        Prod.fst).Nodup :=
  (generate_request_fields_and_answers "pw" (.record [("session_id", .str "s1")])
    ["q1", "q2"] [("q1", "draft"), ("q2", "yes"), ("q1", "final")]
    (by intro e he; fin_cases he <;> simp)).2.2.1

/-- A text input with a `maxLength` attribute: the DOM truncates the value
to at most `maxLen` characters (the job-description textarea has
`maxLength=8000`, index.js 358). -/
def textFieldInput (maxLen : Nat) (s : String) : String :=
  String.mk (s.data.take maxLen)

/-- What `InputStage.handleSubmit` (index.js 247-270) does with the form
state: either a specific error message and no request, or the analyze
`FormData` handed to `onAnalyze`.  The checks run in the source's order:
rules checkbox, non-empty text fields, CV file attached, job description
at least 100 characters. -/
def inputHandleSubmit (rulesChecked : Bool) (form : InputForm)
    (cvFile linkedinFile : Option String) (password : String) :
    Except String (List (String × String)) :=
  if !rulesChecked then
    .error "Please confirm you have read the CV upload rules."
  else if form.company = "" ∨ form.role = "" ∨ form.location = "" ∨
      form.jobDescription = "" then
    .error "All fields are required."
  else
    match cvFile with
    | none => .error "Please upload your CV as a PDF."
    | some cv =>
        if form.jobDescription.length < 100 then
          .error "Job description is too short. Please paste the full JD."
        else
          .ok (buildAnalyzeFormData password form cv linkedinFile)

/-- Claim C9: the form submit sends an analyze request exactly when the
rules checkbox is confirmed, the four text fields are non-empty, a CV file
is attached and the job description has at least 100 characters;
otherwise it sends nothing and shows the specific message of the first
failed check; every request that is sent carries a `cv_file` field; and a
job description entered through the `maxLength=8000` textarea has at most
8000 characters. -/
theorem input_submit_validation (rc : Bool) (form : InputForm)
    (cvFile linkedinFile : Option String) (pw : String) :
    ((inputHandleSubmit rc form cvFile linkedinFile pw).isOk ↔
      (rc = true ∧ form.company ≠ "" ∧ form.role ≠ "" ∧ form.location ≠ "" ∧
       form.jobDescription ≠ "" ∧ cvFile.isSome ∧ 100 ≤ form.jobDescription.length)) ∧
    (∀ fd, inputHandleSubmit rc form cvFile linkedinFile pw = .ok fd →
      "cv_file" ∈ fd.map Prod.fst) ∧
    (rc = false →
      inputHandleSubmit rc form cvFile linkedinFile pw =
        .error "Please confirm you have read the CV upload rules.") ∧
    (rc = true →
      (form.company = "" ∨ form.role = "" ∨ form.location = "" ∨
        form.jobDescription = "") →
      inputHandleSubmit rc form cvFile linkedinFile pw =
        .error "All fields are required.") ∧
    (rc = true → form.company ≠ "" → form.role ≠ "" → form.location ≠ "" →
      form.jobDescription ≠ "" → cvFile = none →
      inputHandleSubmit rc form cvFile linkedinFile pw =
        .error "Please upload your CV as a PDF.") ∧
    (∀ s, (textFieldInput 8000 s).length ≤ 8000) := by
  refine ⟨?_, ?_, ?_, ?_, ?_, ?_⟩
  · constructor
    · intro hok
      by_cases hrc : rc = true
      · by_cases hfields : form.company = "" ∨ form.role = "" ∨ form.location = "" ∨
            form.jobDescription = ""
        · subst hrc
          simp [inputHandleSubmit, hfields, Except.isOk, Except.toBool] at hok
        · cases hcv : cvFile with
          | none =>
              subst hrc
              simp [inputHandleSubmit, hfields, hcv, Except.isOk, Except.toBool] at hok
          | some cv =>
              by_cases hlen : form.jobDescription.length < 100
              · subst hrc
                simp [inputHandleSubmit, hfields, hcv, hlen, Except.isOk,
                  Except.toBool] at hok
              · push_neg at hfields
                subst hrc
                exact ⟨rfl, hfields.1, hfields.2.1, hfields.2.2.1, hfields.2.2.2,
                  by simp [hcv], by omega⟩
      · rw [Bool.not_eq_true] at hrc
        subst hrc
        simp [inputHandleSubmit, Except.isOk, Except.toBool] at hok
    · rintro ⟨hrc, hc, hr, hl, hj, hcv, hlen⟩
      rcases Option.isSome_iff_exists.mp hcv with ⟨cv, rfl⟩
      subst hrc
      have hfields : ¬(form.company = "" ∨ form.role = "" ∨ form.location = "" ∨
          form.jobDescription = "") := by tauto
      have hlen' : ¬(form.jobDescription.length < 100) := by omega
      simp [inputHandleSubmit, hfields, hlen', Except.isOk, Except.toBool]
  · intro fd hfd
    by_cases hrc : rc = true
    · by_cases hfields : form.company = "" ∨ form.role = "" ∨ form.location = "" ∨
          form.jobDescription = ""
      · subst hrc; simp [inputHandleSubmit, hfields] at hfd
      · cases hcv : cvFile with
        | none => subst hrc; simp [inputHandleSubmit, hfields, hcv] at hfd
        | some cv =>
            by_cases hlen : form.jobDescription.length < 100
            · subst hrc; simp [inputHandleSubmit, hfields, hcv, hlen] at hfd
            · subst hrc
              simp only [inputHandleSubmit, Bool.not_true, if_neg hfields, hcv,
                if_neg hlen, Bool.false_eq_true, if_false, Except.ok.injEq] at hfd
              subst hfd
              cases linkedinFile <;> simp [buildAnalyzeFormData]
    · rw [Bool.not_eq_true] at hrc
      subst hrc
      simp [inputHandleSubmit] at hfd
  · intro hrc; subst hrc; rfl
  · intro hrc hfields; subst hrc
    unfold inputHandleSubmit
    rw [if_neg (by simp), if_pos hfields]
  · intro hrc hc hr hl hj hcv; subst hrc; subst hcv
    unfold inputHandleSubmit
    rw [if_neg (by simp), if_neg (by tauto)]
  · intro s
    show (s.data.take 8000).length ≤ 8000
    exact List.length_take_le 8000 s.data

/-- Witness for the C9 theorem: a fully valid submission is sent. -/
theorem input_submit_validation_witness :
    (inputHandleSubmit true
      ⟨"Google", "Backend Engineer", "Singapore",
        String.mk (List.replicate 120 'x')⟩
      (some "cv.pdf") none "pw").isOk = true :=
  (input_submit_validation true
    ⟨"Google", "Backend Engineer", "Singapore",
      String.mk (List.replicate 120 'x')⟩
    (some "cv.pdf") none "pw").1.mpr
    ⟨rfl, by decide, by decide, by decide, by decide, rfl, by decide⟩

/-- The six UI stages of the app (index.js 9-16). -/
inductive Stage where
  | password
  | input
  | analyzing
  | questions
  | generating
  | results
deriving DecidableEq, Repr

/-- The root `App` component's state (index.js 877-881). -/
structure AppState where
  stage : Stage
  password : String
  analysisData : Option JsVal
  resultData : Option JsVal

/-- The state on page load (index.js 878-881). -/
def initialAppState : AppState :=
  { stage := .password, password := "", analysisData := none, resultData := none }

/-- The restart handler (index.js 898-902): clears the analysis data and
the generated results and returns to the input stage. -/
def handleRestart (s : AppState) : AppState :=
  { s with analysisData := none, resultData := none, stage := .input }

/-- The UI events the page can emit.  Each event can only be emitted by
the stage whose UI contains the triggering element, so `appStep` leaves
the state unchanged when the event arrives in any other stage. -/
inductive AppEvent where
  | passwordSubmit : String → AppEvent
  | analyzeStart : AppEvent
  | analyzeOk : JsVal → AppEvent
  | analyzeFail : AppEvent
  | generateOk : JsVal → AppEvent
  | generateFail : AppEvent
  | restart : AppEvent

/-- One step of the root `App` component (index.js 883-936): the password
form moves to the input stage and stores the password; submitting the form
shows the analyzing screen; a successful analyze stores the response and
shows the questions; a failed analyze returns to the input form; a
successful generate stores the result and shows the results (passing
through the transient generating screen); a failed generate stays on the
questions; the New Application button on the results screen restarts. -/
def appStep (s : AppState) : AppEvent → AppState
  | .passwordSubmit pwd =>
      if s.stage = .password then { s with password := pwd, stage := .input } else s
  | .analyzeStart =>
      if s.stage = .input then { s with stage := .analyzing } else s
  | .analyzeOk d =>
      if s.stage = .analyzing then { s with analysisData := some d, stage := .questions }
      else s
  | .analyzeFail =>
      if s.stage = .analyzing then { s with stage := .input } else s
  | .generateOk d =>
      if s.stage = .questions then { s with resultData := some d, stage := .results }
      else s
  | .generateFail => s
  | .restart =>
      if s.stage = .results then handleRestart s else s

theorem appStep_away_from_password (s : AppState) (e : AppEvent)
    (h : s.stage ≠ .password) :
    (appStep s e).stage ≠ .password ∧ (appStep s e).password = s.password := by
  cases e <;> simp only [appStep] <;> (try split) <;> simp_all [handleRestart]

/-- Claim C10: restarting clears only the analysis data and the generated
results and returns to the input stage, leaving the entered password
unchanged; and once the app has left the password stage it never shows it
again (so the password is reused for every later analyze and generate
request in the page load). -/
theorem restart_preserves_password_and_stage_once (s : AppState)
    (evs : List AppEvent) (h : s.stage ≠ .password) :
    (handleRestart s).password = s.password ∧
    (handleRestart s).stage = .input ∧
    (handleRestart s).analysisData = none ∧
    (handleRestart s).resultData = none ∧
    (evs.foldl appStep s).password = s.password ∧
    (evs.foldl appStep s).stage ≠ .password := by
  refine ⟨rfl, rfl, rfl, rfl, ?_⟩
  induction evs generalizing s with
  | nil => exact ⟨rfl, h⟩
  | cons hd tl ih =>
      have hstep := appStep_away_from_password s hd h
      have := ih (appStep s hd) hstep.1
      simp only [List.foldl_cons]
      exact ⟨this.1.trans hstep.2, this.2⟩

/-- Witness for the C10 theorem: from the questions stage, a successful
generate followed by a restart keeps the password and stays away from the
password stage. -/
theorem restart_preserves_password_and_stage_once_witness :
    (([AppEvent.generateOk (.record []), AppEvent.restart].foldl appStep
        { stage := .questions, password := "hunter2",
          analysisData := some (.record []), resultData := none }).password =
      "hunter2") :=
  (restart_preserves_password_and_stage_once
    { stage := .questions, password := "hunter2",
      analysisData := some (.record []), resultData := none }
    [AppEvent.generateOk (.record []), AppEvent.restart]
    (by decide)).2.2.2.2.1

/-- Modelled from the spec: one of the three independent
intelligence-gathering containers (spec section 4.1 and glossary). -/
inductive Container where
  | ats
  | culture
  | role
deriving DecidableEq, Repr

/-- Modelled from the spec: a Finding, the normalized record produced by
the Intelligence Gatherer (spec section 3). -/
structure Finding where
  sourceContainer : Container
  statement : String
  citation_url : Option String
  confidence : Nat
deriving DecidableEq, Repr

/-- Modelled from the spec: the settled outcome of one container's query —
either its findings, or failure/timeout (spec section 4.1). -/
inductive ContainerResult where
  | ok : List Finding → ContainerResult
  | failed : ContainerResult
deriving DecidableEq, Repr

/-- Modelled from the spec: a container that fails or times out
contributes an empty finding set rather than failing the whole gather
(spec section 4.1). -/
def settleContainer : ContainerResult → List Finding
  | .ok fs => fs
  | .failed => []

/-- Modelled from the spec: the analysis-side error taxonomy (spec
section 7). -/
inductive AnalyzeError where
  | InvalidInput
  | IntelligenceUnavailable
deriving DecidableEq, Repr

/-- Modelled from the spec: the three finding sets returned by `gather`
(spec section 4.1). -/
structure GatherResult where
  atsFindings : List Finding
  cultureFindings : List Finding
  roleFindings : List Finding
deriving DecidableEq, Repr

/-- Modelled from the spec: `gather` merges the three settled container
results after all have settled, and fails with `IntelligenceUnavailable`
only if zero containers returned any findings (spec section 4.1). -/
def gather (a b c : ContainerResult) : Except AnalyzeError GatherResult :=
  let fa := settleContainer a
  let fb := settleContainer b
  let fc := settleContainer c
  if fa.isEmpty && fb.isEmpty && fc.isEmpty then .error .IntelligenceUnavailable
  else .ok ⟨fa, fb, fc⟩

/-- Whether `needle` occurs as a contiguous substring of `hay`, via
`splitOn`: a non-trivial split means at least one occurrence. -/
def occursIn (hay needle : String) : Bool := 2 ≤ (hay.splitOn needle).length

/-- Modelled from the spec: a CV/LinkedIn contradiction is a pair of
differing claims (spec section 3). -/
structure Contradiction where
  cv_claim : String
  linkedin_claim : String
deriving DecidableEq, Repr

/-- Modelled from the spec: gaps are role requirements with no supporting
evidence in the CV text, each reported as a short natural-language
description (spec section 4.3); evidence is modelled as verbatim
occurrence of the requirement statement in the CV text. -/
def detectGaps (cvText : String) (roleFindings : List Finding) : List String :=
  (roleFindings.filter (fun f => !occursIn cvText f.statement)).map
    (fun f => "Missing evidence for: " ++ f.statement)

/-- Modelled from the spec: contradictions are only computed when a
LinkedIn export is present, as pairs of claims that differ between CV and
LinkedIn text (spec section 4.3); claims are modelled as the
corresponding lines of the two documents. -/
def detectContradictions (cvText : String) (linkedinText : Option String) :
    List Contradiction :=
  match linkedinText with
  | none => []
  | some li =>
      ((cvText.splitOn "\n").zip (li.splitOn "\n")).filterMap
        (fun p => if p.1 ≠ p.2 then some ⟨p.1, p.2⟩ else none)

/-- A clarifying question as in the spec's data model (spec section 3). -/
structure Question where
  id : String
  question : String
  context : String
deriving DecidableEq, Repr

/-- Modelled from the spec: the question synthesized for the `i`-th gap —
it asks for evidence or experience not captured in the CV, with a context
explaining why it is asked (spec section 4.4). -/
def gapQuestion (i : Nat) (g : String) : Question :=
  { id := "gap_" ++ toString i
  , question := "Do you have any experience or evidence not captured in your CV regarding: " ++ g
  , context := "Asked because a gap was detected: " ++ g }

/-- Modelled from the spec: the question synthesized for the `i`-th
contradiction — it asks which version is authoritative (spec
section 4.4). -/
def contradictionQuestion (i : Nat) (c : Contradiction) : Question :=
  { id := "contradiction_" ++ toString i
  , question := "Your CV says \"" ++ c.cv_claim ++ "\" but your LinkedIn says \"" ++
      c.linkedin_claim ++ "\". Which version is authoritative?"
  , context := "Asked because your CV and LinkedIn disagree on this claim." }

/-- Modelled from the spec: `synthesize` turns each gap and each
contradiction into one independently answerable question with a stable,
position-derived id, deterministically (spec section 4.4). -/
def synthesize (gaps : List String) (contradictions : List Contradiction) :
    List Question :=
  (gaps.enum.map fun p => gapQuestion p.1 p.2) ++
    (contradictions.enum.map fun p => contradictionQuestion p.1 p.2)

/-- Modelled from the spec: the analysis steps that follow intelligence
gathering — detection over the CV and LinkedIn text, then question
synthesis; the whole analysis fails only when `gather` fails (spec
sections 4.1-4.4). -/
def analyzeQuestions (cvText : String) (linkedinText : Option String)
    (a b c : ContainerResult) : Except AnalyzeError (List Question) :=
  (gather a b c).map fun g =>
    synthesize (detectGaps cvText g.roleFindings)
      (detectContradictions cvText linkedinText)

/-- Claim C7: `gather` fails with `IntelligenceUnavailable` exactly when
all three containers settled with zero findings; a failed or timed-out
container contributes an empty finding set; and whenever at least one
container returned findings, the analysis completes with a (possibly
empty) question list rather than an error. -/
theorem gather_unavailable_iff_all_empty (a b c : ContainerResult)
    (cvText : String) (linkedinText : Option String)
    (h : settleContainer a ≠ [] ∨ settleContainer b ≠ [] ∨ settleContainer c ≠ []) :
    (∀ a' b' c' : ContainerResult,
      gather a' b' c' = .error .IntelligenceUnavailable ↔
        (settleContainer a' = [] ∧ settleContainer b' = [] ∧ settleContainer c' = [])) ∧
    settleContainer .failed = [] ∧
    (∃ qs, analyzeQuestions cvText linkedinText a b c = .ok qs) := by
  refine ⟨?_, rfl, ?_⟩
  · intro a' b' c'
    unfold gather
    by_cases he : (settleContainer a').isEmpty && (settleContainer b').isEmpty &&
        (settleContainer c').isEmpty
    · simp only [he, if_true]
      simp only [Bool.and_eq_true, List.isEmpty_iff] at he
      simp [he.1.1, he.1.2, he.2]
    · simp only [he, if_false]
      simp only [Bool.and_eq_true, List.isEmpty_iff] at he
      constructor
      · intro hcon; exact absurd hcon (by simp)
      · intro hall; exact absurd ⟨⟨hall.1, hall.2.1⟩, hall.2.2⟩ he
  · have hne : ¬((settleContainer a).isEmpty && (settleContainer b).isEmpty &&
        (settleContainer c).isEmpty) = true := by
      simp only [Bool.and_eq_true, List.isEmpty_iff]
      rcases h with h | h | h <;> tauto
    refine ⟨synthesize (detectGaps cvText (settleContainer c))
        (detectContradictions cvText linkedinText), ?_⟩
    unfold analyzeQuestions gather
    simp only [hne, if_false]
    rfl

/-- Witness for the C7 theorem: the ATS and culture containers time out
and the role container returns one finding; analysis still completes. -/
theorem gather_unavailable_iff_all_empty_witness :
    ∃ qs, analyzeQuestions "cv text" none .failed .failed
      (.ok [⟨.role, "Kubernetes", none, 80⟩]) = .ok qs :=
  (gather_unavailable_iff_all_empty .failed .failed
    (.ok [⟨.role, "Kubernetes", none, 80⟩]) "cv text" none
    (by right; right; simp [settleContainer])).2.2

/-- Claim C8: `synthesize` is deterministic — identical gaps and
contradictions give identical questions, with the same ids in the same
order — and it produces at most one question per gap or contradiction. -/
theorem synthesize_deterministic_and_bounded (g g' : List String)
    (c c' : List Contradiction) (hg : g = g') (hc : c = c') :
    synthesize g c = synthesize g' c' ∧
    (synthesize g c).map Question.id = (synthesize g' c').map Question.id ∧
    (synthesize g c).length ≤ g.length + c.length := by
  subst hg; subst hc
  refine ⟨rfl, rfl, ?_⟩
  simp [synthesize]

/-- Witness for the C8 theorem at one concrete gap and one concrete
contradiction. -/
theorem synthesize_deterministic_and_bounded_witness :
    (synthesize ["Missing evidence for: Kubernetes"]
        [⟨"Engineer, 2021-2022", "Senior Engineer, 2021-present"⟩]).length ≤
      1 + 1 :=
  (synthesize_deterministic_and_bounded
    ["Missing evidence for: Kubernetes"] ["Missing evidence for: Kubernetes"]
    [⟨"Engineer, 2021-2022", "Senior Engineer, 2021-present"⟩]
    [⟨"Engineer, 2021-2022", "Senior Engineer, 2021-present"⟩] rfl rfl).2.2

/-- Modelled from the spec: sessions expire after a fixed TTL (documented
default one hour) measured from creation (spec section 4.5). -/
def sessionTTL : Nat := 3600

/-- Modelled from the spec: the per-session state held by the Session
Store (spec section 3), keyed externally by the session id. -/
structure Session where
  createdAt : Nat
  cv_text : String
  linkedin_text : Option String
  questions : List Question
deriving DecidableEq, Repr

/-- One deletion performed by the store: which session, when it had been
created, and when it was deleted.  The log exists only to state the
data-minimization property; the spec's `delete` discards the data. -/
structure DeletionRecord where
  sessionId : Nat
  createdAt : Nat
  deletedAt : Nat
deriving DecidableEq, Repr

/-- Modelled from the spec: the Session Store (spec section 4.5) — an
id-indexed in-memory map with a clock, a fresh-id counter (ids are
opaque and never reused), the set of ids for which `generate` has already
been called (backing the `SessionConsumed` at-most-once guarantee), and
the deletion log. -/
structure Store where
  now : Nat
  nextId : Nat
  sessions : List (Nat × Session)
  consumed : List Nat
  deletions : List DeletionRecord
deriving DecidableEq, Repr

/-- The ids of the sessions currently held by the store. -/
def Store.liveIds (st : Store) : List Nat := st.sessions.map Prod.fst

/-- The ids in the store's deletion log. -/
def Store.deletedIds (st : Store) : List Nat :=
  st.deletions.map DeletionRecord.sessionId

/-- The store at process start. -/
def emptyStore : Store :=
  { now := 0, nextId := 0, sessions := [], consumed := [], deletions := [] }

/-- Whether a session is expired at time `t`. -/
def expiredAt (t : Nat) (p : Nat × Session) : Bool :=
  p.2.createdAt + sessionTTL ≤ t

/-- Modelled from the spec: expiry is eager and atomic with respect to
access (spec sections 4.5 and 5) — every expired session is removed, its
deletion effective at its expiry instant. -/
def sweep (st : Store) : Store :=
  { st with
    sessions := st.sessions.filter (fun p => !expiredAt st.now p),
    deletions := st.deletions ++
      (st.sessions.filter (fun p => expiredAt st.now p)).map
        (fun p => ⟨p.1, p.2.createdAt, p.2.createdAt + sessionTTL⟩) }

/-- Advance the store's clock to (at least) `t` and sweep expired
sessions; every request-driven operation goes through this first. -/
def advance (st : Store) (t : Nat) : Store :=
  sweep { st with now := max st.now t }

/-- Modelled from the spec: `create` at time `t` — a fresh opaque id is
assigned and the session data stored with its creation time (spec
section 4.5, `create(sessionData) -> id`). -/
def createOp (st : Store) (t : Nat) (cv : String) (li : Option String)
    (qs : List Question) : Store × Nat :=
  ({ advance st t with
      nextId := (advance st t).nextId + 1,
      sessions := (advance st t).sessions ++
        [((advance st t).nextId, ⟨(advance st t).now, cv, li, qs⟩)] },
   (advance st t).nextId)

/-- Modelled from the spec: the generate-side error taxonomy (spec
sections 4.6 and 7; `GenerationFailed` stands for the all-or-nothing
`GenerationPartialFailure`). -/
inductive GenError where
  | SessionExpired
  | SessionConsumed
  | GenerationFailed
deriving DecidableEq, Repr

/-- A change-log entry as in the spec's data model (spec section 3). -/
structure ChangeLogEntry where
  original : String
  changed_to : String
  reason : String
deriving DecidableEq, Repr

/-- The generation output bundle as in the spec's data model (spec
section 3). -/
structure GenerationOutput where
  cv_ats_version : String
  cv_human_version : String
  cover_letter : String
  application_strategy : String
  change_log : List ChangeLogEntry
  linkedin_tips : List String
deriving DecidableEq, Repr

/-- Modelled from the spec: the document synthesis itself is an external
text-generation call whose content the spec leaves open; only its
lifecycle effects are specified, so the bundle is abstracted as a
deterministic function of the session and the answers. -/
def mkGenerationOutput (sess : Session) (answers : List (String × String)) :
    GenerationOutput :=
  { cv_ats_version := sess.cv_text
  , cv_human_version := sess.cv_text
  , cover_letter := "Cover letter based on " ++ sess.cv_text
  , application_strategy := ""
  , change_log := []
  , linkedin_tips := answers.map (fun a => "Address: " ++ a.2) }

/-- Modelled from the spec: `generate` at time `t` (spec section 4.6) —
fails with `SessionConsumed` if `generate` was already called once for
this id, with `SessionExpired` if the session no longer exists; otherwise
generation runs (`genOk` abstracts whether the external synthesis
succeeded) and, unconditionally on completion, the session is deleted and
the id marked consumed. -/
def generateOp (st : Store) (t : Nat) (qid : Nat)
    (answers : List (String × String)) (genOk : Bool) :
    Except GenError GenerationOutput × Store :=
  if qid ∈ (advance st t).consumed then (.error .SessionConsumed, advance st t)
  else
    match (advance st t).sessions.find? (fun p => p.1 == qid) with
    | none => (.error .SessionExpired, advance st t)
    | some p =>
        (if genOk then .ok (mkGenerationOutput p.2 answers)
         else .error .GenerationFailed,
         { advance st t with
            sessions := (advance st t).sessions.filter (fun q => !(q.1 == qid)),
            consumed := qid :: (advance st t).consumed,
            deletions := (advance st t).deletions ++
              [⟨qid, p.2.createdAt, (advance st t).now⟩] })

/-- A timed request hitting the session store: an analyze (which creates
a session) or a generate on a given session id. -/
inductive SessionReq where
  | analyzeReq : Nat → String → Option String → List Question → SessionReq
  | generateReq : Nat → Nat → List (String × String) → Bool → SessionReq

/-- Run a sequence of timed requests against the store. -/
def runReqs (st : Store) : List SessionReq → Store
  | [] => st
  | .analyzeReq t cv li qs :: rest => runReqs (createOp st t cv li qs).1 rest
  | .generateReq t qid ans ok :: rest => runReqs (generateOp st t qid ans ok).2 rest

/-- Modelled from the spec: at the end of a run the expiry timer fires
for every session still held, so each remaining session is deleted,
effective at its expiry instant. -/
def finalizeStore (st : Store) : Store :=
  { st with
    sessions := [],
    deletions := st.deletions ++
      st.sessions.map (fun p => ⟨p.1, p.2.createdAt, p.2.createdAt + sessionTTL⟩) }

theorem advance_consumed (st : Store) (t : Nat) :
    (advance st t).consumed = st.consumed := rfl

theorem generateOp_consumed_mono (st : Store) (t : Nat) (qid q : Nat)
    (ans : List (String × String)) (genOk : Bool) (h : q ∈ st.consumed) :
    q ∈ ((generateOp st t qid ans genOk).2).consumed := by
  unfold generateOp
  split
  · exact h
  · split
    · exact h
    · exact List.mem_cons_of_mem _ h

theorem runReqs_consumed_mono (reqs : List SessionReq) (st : Store) (q : Nat)
    (h : q ∈ st.consumed) : q ∈ (runReqs st reqs).consumed := by
  induction reqs generalizing st with
  | nil => exact h
  | cons hd tl ih =>
      cases hd with
      | analyzeReq t cv li qs => exact ih _ h
      | generateReq t qid ans ok =>
          exact ih _ (generateOp_consumed_mono st t qid q ans ok h)

theorem generateOp_consumed_of_success (st : Store) (t : Nat) (qid : Nat)
    (ans : List (String × String)) (out : GenerationOutput) (st' : Store)
    (h : generateOp st t qid ans true = (.ok out, st')) :
    qid ∈ st'.consumed := by
  unfold generateOp at h
  split at h
  · simp at h
  · split at h
    · simp at h
    · rw [if_pos rfl, Prod.mk.injEq] at h
      obtain ⟨-, h2⟩ := h
      subst h2
      exact List.mem_cons_self _ _

/-- Claim C5: once a `generate` call on a session id has succeeded, every
subsequent `generate` call on that id — after any further sequence of
requests — fails with `SessionConsumed`; in particular at most one
`generate` call per session id can ever succeed. -/
theorem generate_second_call_session_consumed (st : Store) (t t' : Nat)
    (qid : Nat) (answers answers' : List (String × String)) (genOk' : Bool)
    (reqs : List SessionReq) (out : GenerationOutput) (st' : Store)
    (h : generateOp st t qid answers true = (.ok out, st')) :
    (generateOp (runReqs st' reqs) t' qid answers' genOk').1 =
      .error .SessionConsumed := by
  have hmem : qid ∈ (runReqs st' reqs).consumed :=
    runReqs_consumed_mono reqs st' qid
      (generateOp_consumed_of_success st t qid answers out st' h)
  unfold generateOp
  rw [if_pos (show qid ∈ (advance (runReqs st' reqs) t').consumed from hmem)]

/-- Witness for the C5 theorem: a session is created at time 0, generated
successfully at time 10, and the repeated `generate` at time 20 fails
with `SessionConsumed`. -/
theorem generate_second_call_session_consumed_witness :
    (generateOp
        (generateOp ((createOp emptyStore 0 "cv text" none []).1) 10 0 [] true).2
        20 0 [] true).1 = .error .SessionConsumed :=
  generate_second_call_session_consumed
    ((createOp emptyStore 0 "cv text" none []).1) 10 20 0 [] [] true [] _ _ rfl

/-- The store invariant maintained by every operation: ids are assigned
by the counter and never reused; every assigned id is either live or
deleted, never both, and deleted at most once; live sessions are not past
their expiry; every logged deletion happened within the TTL of the
session's creation; consumed ids are no longer live. -/
structure StoreInv (st : Store) : Prop where
  live_lt : ∀ q ∈ st.liveIds, q < st.nextId
  del_lt : ∀ d ∈ st.deletions, d.sessionId < st.nextId
  consumed_lt : ∀ q ∈ st.consumed, q < st.nextId
  live_nodup : st.liveIds.Nodup
  del_nodup : st.deletedIds.Nodup
  live_del_disjoint : ∀ q ∈ st.liveIds, q ∉ st.deletedIds
  cover : ∀ q, q < st.nextId → q ∈ st.liveIds ∨ q ∈ st.deletedIds
  created_le_now : ∀ p ∈ st.sessions, p.2.createdAt ≤ st.now
  live_not_expired : ∀ p ∈ st.sessions, st.now < p.2.createdAt + sessionTTL
  del_within : ∀ d ∈ st.deletions, d.deletedAt ≤ d.createdAt + sessionTTL
  consumed_not_live : ∀ q ∈ st.consumed, q ∉ st.liveIds

theorem advance_inv (st : Store) (t : Nat) (h : StoreInv st) :
    StoreInv (advance st t) := by
  have hdel : (advance st t).deletedIds = st.deletedIds ++
      (st.sessions.filter (fun p => expiredAt (max st.now t) p)).map Prod.fst := by
    simp [advance, sweep, Store.deletedIds, List.map_map, Function.comp]
  have hlive : (advance st t).liveIds =
      (st.sessions.filter (fun p => !expiredAt (max st.now t) p)).map Prod.fst := rfl
  have hsess : (advance st t).sessions =
      st.sessions.filter (fun p => !expiredAt (max st.now t) p) := rfl
  have hdels : (advance st t).deletions = st.deletions ++
      (st.sessions.filter (fun p => expiredAt (max st.now t) p)).map
        (fun p => (⟨p.1, p.2.createdAt, p.2.createdAt + sessionTTL⟩ : DeletionRecord)) := rfl
  have hsubLive : ∀ q ∈ (advance st t).liveIds, q ∈ st.liveIds := by
    intro q hq
    rw [hlive] at hq
    rcases List.mem_map.mp hq with ⟨p, hp, rfl⟩
    exact List.mem_map_of_mem _ (List.mem_of_mem_filter hp)
  constructor
  case live_lt =>
    intro q hq
    exact h.live_lt q (hsubLive q hq)
  case del_lt =>
    intro d hd
    rw [hdels] at hd
    rcases List.mem_append.mp hd with hd | hd
    · exact h.del_lt d hd
    · rcases List.mem_map.mp hd with ⟨p, hp, rfl⟩
      exact h.live_lt _ (List.mem_map_of_mem _ (List.mem_of_mem_filter hp))
  case consumed_lt =>
    intro q hq
    exact h.consumed_lt q hq
  case live_nodup =>
    rw [hlive]
    exact h.live_nodup.sublist (List.Sublist.map _ (List.filter_sublist _))
  case del_nodup =>
    rw [hdel]
    refine List.Nodup.append h.del_nodup ?_ ?_
    · exact h.live_nodup.sublist (List.Sublist.map _ (List.filter_sublist _))
    · intro q hqd hqe
      rcases List.mem_map.mp hqe with ⟨p, hp, rfl⟩
      exact h.live_del_disjoint _
        (List.mem_map_of_mem _ (List.mem_of_mem_filter hp)) hqd
  case live_del_disjoint =>
    intro q hq hqd
    rw [hdel] at hqd
    rcases List.mem_append.mp hqd with hqd | hqd
    · exact h.live_del_disjoint q (hsubLive q hq) hqd
    · rw [hlive] at hq
      rcases List.mem_map.mp hq with ⟨p₁, hp₁, hq₁⟩
      rcases List.mem_map.mp hqd with ⟨p₂, hp₂, hq₂⟩
      have hmem₁ := List.mem_of_mem_filter hp₁
      have hmem₂ := List.mem_of_mem_filter hp₂
      have heq : p₁ = p₂ :=
        List.inj_on_of_nodup_map h.live_nodup hmem₁ hmem₂ (hq₁.trans hq₂.symm)
      subst heq
      have h₁ := (List.mem_filter.mp hp₁).2
      have h₂ := (List.mem_filter.mp hp₂).2
      rw [Bool.not_eq_true'] at h₁
      rw [h₁] at h₂
      exact Bool.false_ne_true h₂
  case cover =>
    intro q hq
    rcases h.cover q hq with hql | hqd
    · rcases List.mem_map.mp hql with ⟨p, hp, rfl⟩
      by_cases hexp : expiredAt (max st.now t) p = true
      · right
        rw [hdel]
        exact List.mem_append_right _
          (List.mem_map_of_mem _ (List.mem_filter.mpr ⟨hp, hexp⟩))
      · left
        rw [hlive]
        rw [Bool.not_eq_true] at hexp
        exact List.mem_map_of_mem _
          (List.mem_filter.mpr ⟨hp, by simp [hexp]⟩)
    · right
      rw [hdel]
      exact List.mem_append_left _ hqd
  case created_le_now =>
    intro p hp
    rw [hsess] at hp
    exact le_trans (h.created_le_now p (List.mem_of_mem_filter hp))
      (Nat.le_max_left _ _)
  case live_not_expired =>
    intro p hp
    rw [hsess] at hp
    have hkeep := (List.mem_filter.mp hp).2
    rw [Bool.not_eq_true'] at hkeep
    have : ¬(p.2.createdAt + sessionTTL ≤ max st.now t) := by
      simpa [expiredAt] using hkeep
    exact Nat.lt_of_not_le this
  case del_within =>
    intro d hd
    rw [hdels] at hd
    rcases List.mem_append.mp hd with hd | hd
    · exact h.del_within d hd
    · rcases List.mem_map.mp hd with ⟨p, hp, rfl⟩
      exact le_refl _
  case consumed_not_live =>
    intro q hq hql
    exact h.consumed_not_live q hq (hsubLive q hql)

theorem createOp_inv (st : Store) (t : Nat) (cv : String) (li : Option String)
    (qs : List Question) (h : StoreInv st) : StoreInv ((createOp st t cv li qs).1) := by
  have ha := advance_inv st t h
  set A := advance st t with hA
  have hlive : ((createOp st t cv li qs).1).liveIds = A.liveIds ++ [A.nextId] := by
    simp [createOp, Store.liveIds, ← hA]
  have hfresh : A.nextId ∉ A.liveIds := fun hmem =>
    absurd (ha.live_lt _ hmem) (lt_irrefl _)
  have hfreshDel : A.nextId ∉ A.deletedIds := by
    intro hmem
    rcases List.mem_map.mp hmem with ⟨d, hd, hds⟩
    exact absurd (hds ▸ ha.del_lt d hd) (lt_irrefl _)
  constructor
  case live_lt =>
    intro q hq
    rw [hlive] at hq
    show q < A.nextId + 1
    rcases List.mem_append.mp hq with hq | hq
    · exact Nat.lt_succ_of_lt (ha.live_lt q hq)
    · rw [List.mem_singleton.mp hq]
      exact Nat.lt_succ_self _
  case del_lt =>
    intro d hd
    exact Nat.lt_succ_of_lt (ha.del_lt d hd)
  case consumed_lt =>
    intro q hq
    exact Nat.lt_succ_of_lt (ha.consumed_lt q hq)
  case live_nodup =>
    rw [hlive]
    exact List.Nodup.append ha.live_nodup (List.nodup_singleton _)
      (fun q hq hq' => hfresh ((List.mem_singleton.mp hq') ▸ hq))
  case del_nodup => exact ha.del_nodup
  case live_del_disjoint =>
    intro q hq hqd
    rw [hlive] at hq
    rcases List.mem_append.mp hq with hq | hq
    · exact ha.live_del_disjoint q hq hqd
    · exact hfreshDel ((List.mem_singleton.mp hq) ▸ hqd)
  case cover =>
    intro q hq
    rcases Nat.lt_succ_iff_lt_or_eq.mp hq with hq | hq
    · rcases ha.cover q hq with hql | hqd
      · left; rw [hlive]; exact List.mem_append_left _ hql
      · right; exact hqd
    · left
      rw [hlive, hq]
      exact List.mem_append_right _ (List.mem_singleton_self _)
  case created_le_now =>
    intro p hp
    rcases List.mem_append.mp hp with hp | hp
    · exact ha.created_le_now p hp
    · rw [List.mem_singleton.mp hp]
      exact le_refl _
  case live_not_expired =>
    intro p hp
    rcases List.mem_append.mp hp with hp | hp
    · exact ha.live_not_expired p hp
    · rw [List.mem_singleton.mp hp]
      exact Nat.lt_add_of_pos_right (by decide)
  case del_within =>
    intro d hd
    exact ha.del_within d hd
  case consumed_not_live =>
    intro q hq hql
    rw [hlive] at hql
    rcases List.mem_append.mp hql with hql | hql
    · exact ha.consumed_not_live q hq hql
    · rw [List.mem_singleton.mp hql] at hq
      exact absurd (ha.consumed_lt _ hq) (lt_irrefl _)

theorem generateOp_inv (st : Store) (t : Nat) (qid : Nat)
    (ans : List (String × String)) (genOk : Bool) (h : StoreInv st) :
    StoreInv ((generateOp st t qid ans genOk).2) := by
  have ha := advance_inv st t h
  unfold generateOp
  set A := advance st t with hA
  split
  · exact ha
  · split
    · exact ha
    · rename_i p hfind
      have hpmem : p ∈ A.sessions := List.mem_of_find?_eq_some hfind
      have hpq : p.1 = qid := by simpa using List.find?_some hfind
      have hsubLive : ∀ q ∈ (A.sessions.filter (fun r => !(r.1 == qid))).map Prod.fst,
          q ∈ A.liveIds := by
        intro q hq
        rcases List.mem_map.mp hq with ⟨r, hr, rfl⟩
        exact List.mem_map_of_mem _ (List.mem_of_mem_filter hr)
      have hneq : ∀ q ∈ (A.sessions.filter (fun r => !(r.1 == qid))).map Prod.fst,
          q ≠ qid := by
        intro q hq
        rcases List.mem_map.mp hq with ⟨r, hr, rfl⟩
        have := (List.mem_filter.mp hr).2
        simpa using this
      have hqidLive : qid ∈ A.liveIds := hpq ▸ List.mem_map_of_mem _ hpmem
      constructor
      case live_lt =>
        intro q hq
        exact ha.live_lt q (hsubLive q hq)
      case del_lt =>
        intro d hd
        rcases List.mem_append.mp hd with hd | hd
        · exact ha.del_lt d hd
        · rw [List.mem_singleton.mp hd]
          exact ha.live_lt _ hqidLive
      case consumed_lt =>
        intro q hq
        rcases List.mem_cons.mp hq with hq | hq
        · rw [hq]; exact ha.live_lt _ hqidLive
        · exact ha.consumed_lt q hq
      case live_nodup =>
        exact ha.live_nodup.sublist (List.Sublist.map _ (List.filter_sublist _))
      case del_nodup =>
        simp only [Store.deletedIds, List.map_append]
        refine List.Nodup.append ha.del_nodup (by simp) ?_
        intro q hq hq'
        have hq2 : q = qid := by simpa using hq'
        exact ha.live_del_disjoint q (hq2 ▸ hqidLive) hq
      case live_del_disjoint =>
        intro q hq hqd
        simp only [Store.deletedIds, List.map_append, List.mem_append] at hqd
        rcases hqd with hqd | hqd
        · exact ha.live_del_disjoint q (hsubLive q hq) hqd
        · have hq2 : q = qid := by simpa using hqd
          exact hneq q hq hq2
      case cover =>
        intro q hq
        rcases ha.cover q hq with hql | hqd
        · by_cases hqq : q = qid
          · right
            simp only [Store.deletedIds, List.map_append, List.mem_append]
            right
            simp [hqq]
          · left
            rcases List.mem_map.mp hql with ⟨r, hr, rfl⟩
            refine List.mem_map_of_mem _ (List.mem_filter.mpr ⟨hr, ?_⟩)
            simpa using hqq
        · right
          simp only [Store.deletedIds, List.map_append, List.mem_append]
          left
          exact hqd
      case created_le_now =>
        intro p' hp'
        exact ha.created_le_now p' (List.mem_of_mem_filter hp')
      case live_not_expired =>
        intro p' hp'
        exact ha.live_not_expired p' (List.mem_of_mem_filter hp')
      case del_within =>
        intro d hd
        rcases List.mem_append.mp hd with hd | hd
        · exact ha.del_within d hd
        · rw [List.mem_singleton.mp hd]
          exact le_of_lt (ha.live_not_expired p hpmem)
      case consumed_not_live =>
        intro q hq hql
        rcases List.mem_cons.mp hq with hq | hq
        · exact hneq q hql hq
        · exact ha.consumed_not_live q hq (hsubLive q hql)

theorem emptyStore_inv : StoreInv emptyStore := by
  constructor <;> simp [emptyStore, Store.liveIds, Store.deletedIds]

theorem runReqs_inv (reqs : List SessionReq) (st : Store) (h : StoreInv st) :
    StoreInv (runReqs st reqs) := by
  induction reqs generalizing st with
  | nil => exact h
  | cons hd tl ih =>
      cases hd with
      | analyzeReq t cv li qs => exact ih _ (createOp_inv st t cv li qs h)
      | generateReq t qid ans ok => exact ih _ (generateOp_inv st t qid ans ok h)

theorem finalize_facts (st : Store) (h : StoreInv st) :
    (finalizeStore st).sessions = [] ∧
    ((finalizeStore st).deletedIds).Nodup ∧
    (∀ d ∈ (finalizeStore st).deletions, d.deletedAt ≤ d.createdAt + sessionTTL) ∧
    (∀ q, q ∈ (finalizeStore st).deletedIds ↔ q < st.nextId) := by
  have hdel : (finalizeStore st).deletedIds = st.deletedIds ++ st.liveIds := by
    simp [finalizeStore, Store.deletedIds, Store.liveIds, List.map_map, Function.comp]
  refine ⟨rfl, ?_, ?_, ?_⟩
  · rw [hdel]
    exact List.Nodup.append h.del_nodup h.live_nodup
      (fun q hqd hql => h.live_del_disjoint q hql hqd)
  · intro d hd
    rcases List.mem_append.mp hd with hd | hd
    · exact h.del_within d hd
    · rcases List.mem_map.mp hd with ⟨p, hp, rfl⟩
      exact le_refl _
  · intro q
    rw [hdel, List.mem_append]
    constructor
    · intro hq
      rcases hq with hq | hq
      · rcases List.mem_map.mp hq with ⟨d, hd, rfl⟩
        exact h.del_lt d hd
      · exact h.live_lt q hq
    · intro hq
      rcases h.cover q hq with hql | hqd
      · exact Or.inr hql
      · exact Or.inl hqd

theorem generateOp_removes (st : Store) (h : StoreInv st) (t : Nat) (qid : Nat)
    (ans : List (String × String)) (genOk : Bool) :
    qid ∉ ((generateOp st t qid ans genOk).2).liveIds := by
  have ha := advance_inv st t h
  unfold generateOp
  set A := advance st t with hA
  split
  · rename_i hc
    exact ha.consumed_not_live qid hc
  · split
    · rename_i hfind
      intro hql
      rcases List.mem_map.mp hql with ⟨p, hp, hpq⟩
      have := List.find?_eq_none.mp hfind p hp
      simp [hpq] at this
    · rename_i p hfind
      intro hql
      rcases List.mem_map.mp hql with ⟨r, hr, hrq⟩
      have := (List.mem_filter.mp hr).2
      simp [hrq] at this

/-- Claim C6: over any sequence of timed analyze/generate requests run
from process start, once the expiry timer has fired for every remaining
session, no session data is left; every created session id appears
exactly once in the deletion log (the log's ids are duplicate-free and
are exactly the ids the counter assigned); every logged deletion happened
within the TTL of that session's creation, whether or not `generate` was
invoked on it; and a completed `generate` call — successful or failed —
never leaves its target session live. -/
theorem session_delete_exactly_once_within_ttl (reqs : List SessionReq) :
    (finalizeStore (runReqs emptyStore reqs)).sessions = [] ∧
    ((finalizeStore (runReqs emptyStore reqs)).deletedIds).Nodup ∧
    (∀ d ∈ (finalizeStore (runReqs emptyStore reqs)).deletions,
      d.deletedAt ≤ d.createdAt + sessionTTL) ∧
    (∀ q, q ∈ (finalizeStore (runReqs emptyStore reqs)).deletedIds ↔
      q < (runReqs emptyStore reqs).nextId) ∧
    (∀ t qid ans genOk,
      qid ∉ ((generateOp (runReqs emptyStore reqs) t qid ans genOk).2).liveIds) := by
  have hinv := runReqs_inv reqs emptyStore emptyStore_inv
  have hf := finalize_facts _ hinv
  exact ⟨hf.1, hf.2.1, hf.2.2.1, hf.2.2.2,
    fun t qid ans ok => generateOp_removes _ hinv t qid ans ok⟩

/-- Witness for the C6 theorem: a session created at time 0 and generated
at time 10 appears in the deletion log of the finalized run. -/
theorem session_delete_exactly_once_within_ttl_witness :
    (0 : Nat) ∈ (finalizeStore (runReqs emptyStore
      [SessionReq.analyzeReq 0 "cv" none [],
       SessionReq.generateReq 10 0 [] true])).deletedIds :=
  ((session_delete_exactly_once_within_ttl
    [SessionReq.analyzeReq 0 "cv" none [],
     SessionReq.generateReq 10 0 [] true]).2.2.2.1 0).mpr Nat.zero_lt_one

end ApplySharp
